import Mathlib

/-!
Shallow embedding of the two source files of
`Spacecraft-Design-for-Jovian-Missions`:

* `calculate_thickness.py` — line parser, fluence/shielding pipeline,
  hazard selection, run outcomes of `calculate_shielding`;
* `spacecraft_trajectory_propagator.py` — fixed-stride downsampling,
  frame composition (m → km), SPENVIS text serialization.

Python floats are modelled as real numbers; Python's builtin `float()`
string conversion and f-string decimal formatting are external library
routines, modelled as abstract parameters (`pf`, `fmt`).
-/

namespace Jovian

/-! ### Line parser (`calculate_thickness.py`, lines 19–37)

The source splits each line with `re.split(r'[,\s]+', line.strip())` and
then drops empty strings.  `splitRuns` produces the maximal runs of
non-separator characters directly, which is the same token list: splitting
on every run of separators and discarding empties subsumes the `strip`. -/

def isSep (c : Char) : Bool := c = ',' || c.isWhitespace

def splitRunsAux : List Char → List Char → List (List Char)
  | acc, [] => if acc.isEmpty then [] else [acc.reverse]
  | acc, c :: cs =>
      if isSep c then
        if acc.isEmpty then splitRunsAux [] cs else acc.reverse :: splitRunsAux [] cs
      else splitRunsAux (c :: acc) cs

def splitRuns (s : List Char) : List (List Char) := splitRunsAux [] s

/-- A successfully parsed data row: column 1 is energy (MeV), column 2 the
electron flux (`valid_rows.append([energy, flux_electron])`). -/
structure FluxRecord where
  energy : ℝ
  flux : ℝ

/-- One line of the scan loop (lines 19–37): tokenize, require at least two
tokens, convert the first two with the float-conversion oracle `pf`
(Python's `float`); any failure skips the line. -/
def parseLine (pf : List Char → Option ℝ) (line : List Char) : Option FluxRecord :=
  match splitRuns line with
  | a :: b :: _ =>
      match pf a, pf b with
      | some e, some fl => some ⟨e, fl⟩
      | _, _ => none
  | _ => none

/-- The whole scan over the file's lines: `valid_rows`. -/
def parseFile (pf : List Char → Option ℝ) (lines : List (List Char)) : List FluxRecord :=
  lines.filterMap (parseLine pf)

/-! ### Fluence and shielding pipeline (`calculate_thickness.py`, lines 50–97) -/

/-- A DataFrame row after the `ElectronFluence` column is added (line 56). -/
structure FluenceRecord where
  energy : ℝ
  flux : ℝ
  fluence : ℝ

/-- A `target_data` row after the shielding and thickness columns are added
(lines 77–80); only the columns read downstream are kept. -/
structure ShieldingRecord where
  energy : ℝ
  fluence : ℝ
  thickness : ℝ

/-- Fluence conversion: `seconds_in_mission = mission_duration_days * 24 * 3600`;
`data['ElectronFluence'] = data['ElectronFlux'] * seconds_in_mission`. -/
noncomputable def withFluence (d : ℝ) (rs : List FluxRecord) : List FluenceRecord :=
  rs.map (fun r => ⟨r.energy, r.flux, r.flux * (d * 24 * 3600)⟩)

/-- Relevance filter: `target_data = data[data['Energy_MeV'] >= 0.04]` (line 59). -/
noncomputable def keepRelevant : List FluenceRecord → List FluenceRecord
  | [] => []
  | r :: rs => if 0.04 ≤ r.energy then r :: keepRelevant rs else keepRelevant rs

noncomputable def targetData (d : ℝ) (rs : List FluxRecord) : List FluenceRecord :=
  keepRelevant (withFluence d rs)

/-- Weber's empirical range approximation for aluminium (lines 66–74):
low-energy branch for `E < 2.5` guarded against `log 0`, linear branch
otherwise. -/
noncomputable def weberArealDensity (e : ℝ) : ℝ :=
  if e < 2.5 then
    if 0 < e then 0.412 * e ^ (1.265 - 0.0954 * Real.log e) else 0.0
  else 0.530 * e - 0.106

/-- Thickness conversion: `Al_Thickness_mm = (Shielding_g_cm2 / 2.70) * 10.0` (line 80). -/
noncomputable def thicknessMm (r : ℝ) : ℝ := (r / 2.70) * 10.0

/-- The `target_data` rows with the shielding/thickness columns computed
per energy (lines 63–80). -/
noncomputable def shieldingRows (d : ℝ) (rs : List FluxRecord) : List ShieldingRecord :=
  (targetData d rs).map (fun r => ⟨r.energy, r.fluence, thicknessMm (weberArealDensity r.energy)⟩)

/-- Hazard filter: `hazardous_energies = target_data[target_data['ElectronFluence'] > 1e9]`
(line 85). -/
noncomputable def hazardousOf : List ShieldingRecord → List ShieldingRecord
  | [] => []
  | r :: rs => if 1e9 < r.fluence then r :: hazardousOf rs else hazardousOf rs

/-- Column maximum `hazardous_energies['Energy_MeV'].max()` (line 88); only applied to
nonempty lists by the pipeline. -/
noncomputable def maxEnergy : List ShieldingRecord → ℝ
  | [] => 0
  | [r] => r.energy
  | r :: s :: rs => max r.energy (maxEnergy (s :: rs))

/-- The pandas row selection `hz[hz['Energy_MeV'] == e]...values[0]`:
the first record whose energy equals `e` (line 90). -/
noncomputable def firstWithEnergy (e : ℝ) : List ShieldingRecord → Option ShieldingRecord
  | [] => none
  | r :: rs => if r.energy = e then some r else firstWithEnergy e rs

/-- Raw design thickness (lines 87–94): thickness of the first record at
the maximal hazardous energy, or the 2.0 mm structural minimum. -/
noncomputable def designThicknessRaw (rs : List ShieldingRecord) : ℝ :=
  if (hazardousOf rs).isEmpty then 2.0
  else ((firstWithEnergy (maxEnergy (hazardousOf rs)) (hazardousOf rs)).map
        ShieldingRecord.thickness).getD 0

/-- Reported hazard energy (lines 87–93): the maximal hazardous energy, or
the fixed 0.5 MeV floor. -/
noncomputable def maxHazardEnergy (rs : List ShieldingRecord) : ℝ :=
  if (hazardousOf rs).isEmpty then 0.5 else maxEnergy (hazardousOf rs)

/-- Safety factor: `final_thickness = design_thickness * 1.2` (line 97). -/
noncomputable def finalThickness (rs : List ShieldingRecord) : ℝ :=
  designThicknessRaw rs * 1.2

/-- Observable outcome of one `calculate_shielding` run: the two error
paths (`return 0.0`) and the success path, which prints the hazard energy
and the recommended thickness, saves the plot, and falls off the end of
the function. -/
inductive RunOutcome where
  | fileMissing : RunOutcome
  | emptyData : RunOutcome
  | success (maxHazardEnergy finalThickness : ℝ) : RunOutcome

/-- The function `calculate_shielding` (lines 6–113).  The file is `none` when `open`
raises `FileNotFoundError`, otherwise `some` of its lines. -/
noncomputable def calculate_shielding (pf : List Char → Option ℝ)
    (file : Option (List (List Char))) (mission_duration_days : ℝ) : RunOutcome :=
  match file with
  | none => RunOutcome.fileMissing
  | some lines =>
      let valid_rows := parseFile pf lines
      if valid_rows.isEmpty then RunOutcome.emptyData
      else
        let srows := shieldingRows mission_duration_days valid_rows
        RunOutcome.success (maxHazardEnergy srows) (finalThickness srows)

/-- The Python return value of a run: `0.0` on both error paths (lines 41
and 48), `None` (modelled as `none`) when the computation succeeds. -/
noncomputable def pyReturn : RunOutcome → Option ℝ
  | RunOutcome.fileMissing => some 0.0
  | RunOutcome.emptyData => some 0.0
  | RunOutcome.success _ _ => none

/-! ### Trajectory export (`spacecraft_trajectory_propagator.py`)

The propagation itself is an external oracle; the exporters consume its
state history as parallel lists of epochs (seconds) and 6-vector states
(m, m/s), and re-query the ephemeris oracle (`spice.get_body_cartesian_state_at_epoch`,
modelled as `gan : ℝ → Fin 6 → ℝ`) per retained epoch. -/

/-- Python's extended slice `xs[::k]`: every `k`-th element starting at
index 0 (lines 169–170 with `k = 6`, lines 246–247 with `k = 30`). -/
def downsample (k : ℕ) : List α → List α
  | [] => []
  | x :: xs => x :: downsample k (xs.drop (k - 1))
termination_by xs => xs.length
decreasing_by simp only [List.length_drop, List.length_cons]; omega

/-- The stride of the SPENVIS exporter (line 169). -/
def spenvisStride : ℕ := 6

/-- The stride of the CCSDS OEM exporter (line 244). -/
def oemStride : ℕ := 30

/-- Position composition of the SPENVIS exporter (lines 192–194):
spacecraft state w.r.t. Ganymede plus Ganymede state w.r.t. Jupiter,
components 0–2, metres to kilometres. -/
noncomputable def composePosKm (sc gan : Fin 6 → ℝ) : Fin 3 → ℝ :=
  ![(sc 0 + gan 0) / 1000.0, (sc 1 + gan 1) / 1000.0, (sc 2 + gan 2) / 1000.0]

/-- Full state composition of the OEM exporter (lines 287–294): positions
and velocities, metres to kilometres. -/
noncomputable def composeStateKm (sc gan : Fin 6 → ℝ) : Fin 6 → ℝ :=
  ![(sc 0 + gan 0) / 1000.0, (sc 1 + gan 1) / 1000.0, (sc 2 + gan 2) / 1000.0,
    (sc 3 + gan 3) / 1000.0, (sc 4 + gan 4) / 1000.0, (sc 5 + gan 5) / 1000.0]

/-- Constant `jd_j2000 = 2451545.0` (line 161). -/
noncomputable def jdJ2000 : ℝ := 2451545.0

/-- The header block written before the data section (lines 203–211). -/
def spenvisHeaderLines : List String :=
  ["******************************************************************",
   "* Optimized Ganymede Orbiter Trajectory (60s step)",
   "******************************************************************",
   "Title: Ganymede Orbiter Analysis",
   "Planet: Jupiter",
   "Coordinates: PEI",
   "Columns: JDCT, X, Y, Z",
   "Format: CSV",
   "******************************************************************"]

/-- One data record (lines 176–198): Julian date `2451545.0 + t/86400`
with 9 decimals, then X, Y, Z in km with 6 decimals, comma separated.
`fmt d x` is Python's fixed-point rendering of `x` with `d` decimals. -/
noncomputable def spenvisDataLine (fmt : ℕ → ℝ → String) (gan : ℝ → Fin 6 → ℝ)
    (p : ℝ × (Fin 6 → ℝ)) : String :=
  fmt 9 (jdJ2000 + p.1 / 86400.0) ++ ", " ++
  fmt 6 (composePosKm p.2 (gan p.1) 0) ++ ", " ++
  fmt 6 (composePosKm p.2 (gan p.1) 1) ++ ", " ++
  fmt 6 (composePosKm p.2 (gan p.1) 2)

/-- The lines of the file written by `export_results_for_spenvis`
(lines 160–215): header block, `$$BEGIN`, one record per retained
(stride-6 downsampled) epoch, `$$END`. -/
noncomputable def spenvisFileLines (fmt : ℕ → ℝ → String) (gan : ℝ → Fin 6 → ℝ)
    (times : List ℝ) (states : List (Fin 6 → ℝ)) : List String :=
  spenvisHeaderLines ++ ["$$BEGIN"] ++
    ((downsample spenvisStride times).zip (downsample spenvisStride states)).map
      (spenvisDataLine fmt gan) ++
  ["$$END"]

/-- A sample float-conversion oracle for concrete runs: every token reads
as `1.0`. -/
noncomputable def pfOne : List Char → Option ℝ := fun _ => some 1

/-! ## Theorems -/

theorem splitRunsAux_sound (s : List Char) :
    ∀ (acc : List Char), (∀ c ∈ acc, isSep c = false) →
      ∀ t ∈ splitRunsAux acc s, t ≠ [] ∧ ∀ c ∈ t, isSep c = false := by
  induction s with
  | nil =>
      intro acc hacc t ht
      rw [splitRunsAux] at ht
      by_cases h : acc.isEmpty
      · simp [h] at ht
      · rw [if_neg h] at ht
        rcases List.mem_singleton.mp ht with rfl
        refine ⟨?_, ?_⟩
        · simp only [ne_eq, List.reverse_eq_nil_iff]
          exact fun hnil => h (by simp [hnil])
        · intro c hc
          exact hacc c (List.mem_reverse.mp hc)
  | cons c cs ih =>
      intro acc hacc t ht
      rw [splitRunsAux] at ht
      by_cases hsep : isSep c
      · rw [if_pos hsep] at ht
        by_cases h : acc.isEmpty
        · rw [if_pos h] at ht
          exact ih [] (by simp) t ht
        · rw [if_neg h] at ht
          rcases List.mem_cons.mp ht with rfl | hmem
          · refine ⟨?_, ?_⟩
            · simp only [ne_eq, List.reverse_eq_nil_iff]
              exact fun hnil => h (by simp [hnil])
            · intro x hx
              exact hacc x (List.mem_reverse.mp hx)
          · exact ih [] (by simp) t hmem
      · rw [if_neg hsep] at ht
        refine ih (c :: acc) ?_ t ht
        intro x hx
        rcases List.mem_cons.mp hx with rfl | hx
        · exact Bool.not_eq_true _ ▸ (by simpa using hsep)
        · exact hacc x hx

theorem splitRuns_sound (s : List Char) :
    ∀ t ∈ splitRuns s, t ≠ [] ∧ ∀ c ∈ t, isSep c = false :=
  splitRunsAux_sound s [] (by simp)

theorem parseLine_eq_some_iff (pf : List Char → Option ℝ) (line : List Char)
    (r : FluxRecord) :
    parseLine pf line = some r ↔
      ∃ a b rest, splitRuns line = a :: b :: rest ∧
        pf a = some r.energy ∧ pf b = some r.flux := by
  unfold parseLine
  cases h : splitRuns line with
  | nil => simp
  | cons a tl =>
      cases tl with
      | nil => simp
      | cons b rest =>
          cases ha : pf a with
          | none => simp [ha]
          | some e =>
              cases hb : pf b with
              | none => simp [ha, hb]
              | some fl =>
                  simp only [ha, hb, Option.some.injEq]
                  constructor
                  · rintro rfl
                    exact ⟨a, b, rest, rfl, ha, hb⟩
                  · rintro ⟨a2, b2, rest2, heq, ha2, hb2⟩
                    obtain ⟨rfl, rfl, rfl⟩ :
                        a2 = a ∧ b2 = b ∧ rest2 = rest := by
                      simpa using heq.symm
                    cases r
                    simp only [FluxRecord.mk.injEq]
                    refine ⟨?_, ?_⟩
                    · exact Option.some.inj (ha.symm.trans ha2)
                    · exact Option.some.inj (hb.symm.trans hb2)

/-- Claim C3: a line is tokenized into the maximal runs of
non-comma/whitespace characters (so every token is nonempty and
separator-free), and the scan emits exactly one `FluxRecord`, built from
the first two tokens, precisely when there are at least two tokens and the
float conversion succeeds on both; every other line yields no record (the
parse is total — no error). -/
theorem claim_C3_line_scan (pf : List Char → Option ℝ) (line : List Char) :
    (∀ t ∈ splitRuns line, t ≠ [] ∧ ∀ c ∈ t, isSep c = false) ∧
    (∀ r : FluxRecord, parseLine pf line = some r ↔
      ∃ a b rest, splitRuns line = a :: b :: rest ∧
        pf a = some r.energy ∧ pf b = some r.flux) ∧
    (parseLine pf line = none ↔
      ∀ a b rest, splitRuns line = a :: b :: rest →
        (pf a).isNone ∨ (pf b).isNone) := by
  refine ⟨splitRuns_sound line, fun r => parseLine_eq_some_iff pf line r, ?_⟩
  constructor
  · intro hnone a b rest heq
    by_contra hcon
    push_neg at hcon
    rcases hcon with ⟨hA, hB⟩
    have hA2 : pf a ≠ none := fun hn => hA (by simp [hn])
    have hB2 : pf b ≠ none := fun hn => hB (by simp [hn])
    obtain ⟨e, he⟩ := Option.ne_none_iff_exists'.mp hA2
    obtain ⟨fl, hf⟩ := Option.ne_none_iff_exists'.mp hB2
    have hs := (parseLine_eq_some_iff pf line ⟨e, fl⟩).mpr ⟨a, b, rest, heq, he, hf⟩
    rw [hs] at hnone
    exact Option.some_ne_none _ hnone
  · intro hall
    cases hp : parseLine pf line with
    | none => rfl
    | some r =>
        obtain ⟨a, b, rest, heq, ha, hb⟩ := (parseLine_eq_some_iff pf line r).mp hp
        rcases hall a b rest heq with hn | hn
        · rw [ha] at hn
          simp at hn
        · rw [hb] at hn
          simp at hn

theorem claim_C3_line_scan_witness :
    parseLine pfOne ['1', ' ', '2'] = some ⟨1, 1⟩ :=
  ((claim_C3_line_scan pfOne ['1', ' ', '2']).2.1 ⟨1, 1⟩).mpr
    ⟨['1'], ['2'], [], by decide, rfl, rfl⟩

theorem mem_keepRelevant {x : FluenceRecord} :
    ∀ {rs : List FluenceRecord}, x ∈ keepRelevant rs ↔ x ∈ rs ∧ 0.04 ≤ x.energy := by
  intro rs
  induction rs with
  | nil => simp [keepRelevant]
  | cons r tl ih =>
      by_cases h : (0.04 : ℝ) ≤ r.energy
      · rw [keepRelevant, if_pos h]
        simp only [List.mem_cons, ih]
        constructor
        · rintro (rfl | ⟨hm, he⟩)
          · exact ⟨Or.inl rfl, h⟩
          · exact ⟨Or.inr hm, he⟩
        · rintro ⟨rfl | hm, he⟩
          · exact Or.inl rfl
          · exact Or.inr ⟨hm, he⟩
      · rw [keepRelevant, if_neg h, ih]
        simp only [List.mem_cons]
        constructor
        · rintro ⟨hm, he⟩
          exact ⟨Or.inr hm, he⟩
        · rintro ⟨rfl | hm, he⟩
          · exact absurd he h
          · exact ⟨hm, he⟩

theorem mem_hazardousOf {x : ShieldingRecord} :
    ∀ {rs : List ShieldingRecord}, x ∈ hazardousOf rs ↔ x ∈ rs ∧ 1e9 < x.fluence := by
  intro rs
  induction rs with
  | nil => simp [hazardousOf]
  | cons r tl ih =>
      by_cases h : (1e9 : ℝ) < r.fluence
      · rw [hazardousOf, if_pos h]
        simp only [List.mem_cons, ih]
        constructor
        · rintro (rfl | ⟨hm, he⟩)
          · exact ⟨Or.inl rfl, h⟩
          · exact ⟨Or.inr hm, he⟩
        · rintro ⟨rfl | hm, he⟩
          · exact Or.inl rfl
          · exact Or.inr ⟨hm, he⟩
      · rw [hazardousOf, if_neg h, ih]
        simp only [List.mem_cons]
        constructor
        · rintro ⟨hm, he⟩
          exact ⟨Or.inr hm, he⟩
        · rintro ⟨rfl | hm, he⟩
          · exact absurd he h
          · exact ⟨hm, he⟩

theorem le_maxEnergy :
    ∀ {rs : List ShieldingRecord}, ∀ r ∈ rs, r.energy ≤ maxEnergy rs := by
  intro rs
  induction rs with
  | nil => simp
  | cons a tl ih =>
      cases tl with
      | nil =>
          intro r hr
          rcases List.mem_singleton.mp hr with rfl
          exact le_of_eq (by rw [maxEnergy])
      | cons b tl2 =>
          intro r hr
          rw [maxEnergy]
          rcases List.mem_cons.mp hr with rfl | hm
          · exact le_max_left _ _
          · exact le_trans (ih r hm) (le_max_right _ _)

theorem maxEnergy_mem :
    ∀ {rs : List ShieldingRecord}, rs ≠ [] → ∃ r ∈ rs, r.energy = maxEnergy rs := by
  intro rs
  induction rs with
  | nil => intro h; exact absurd rfl h
  | cons a tl ih =>
      intro _
      cases tl with
      | nil => exact ⟨a, List.mem_singleton.mpr rfl, by rw [maxEnergy]⟩
      | cons b tl2 =>
          rw [maxEnergy]
          rcases le_total (maxEnergy (b :: tl2)) a.energy with h | h
          · exact ⟨a, List.mem_cons_self a _, (max_eq_left h).symm⟩
          · obtain ⟨r, hr, he⟩ := ih (List.cons_ne_nil b tl2)
            exact ⟨r, List.mem_cons_of_mem a hr, he.trans (max_eq_right h).symm⟩

theorem firstWithEnergy_spec {e : ℝ} :
    ∀ {rs : List ShieldingRecord}, (∃ r ∈ rs, r.energy = e) →
      ∃ r, firstWithEnergy e rs = some r ∧ r ∈ rs ∧ r.energy = e := by
  intro rs
  induction rs with
  | nil => rintro ⟨r, hr, _⟩; simp at hr
  | cons a tl ih =>
      intro hex
      by_cases h : a.energy = e
      · exact ⟨a, by rw [firstWithEnergy, if_pos h], List.mem_cons_self a tl, h⟩
      · obtain ⟨r, hr, he⟩ := hex
        rcases List.mem_cons.mp hr with rfl | hm
        · exact absurd he h
        · obtain ⟨r2, hf, hm2, he2⟩ := ih ⟨r, hm, he⟩
          exact ⟨r2, by rw [firstWithEnergy, if_neg h]; exact hf,
                 List.mem_cons_of_mem a hm2, he2⟩

/-- Claim C1: the hazardous set is exactly the records with
`fluence > 1e9`; when it is nonempty the raw design thickness is the
thickness of a hazardous record of maximal energy, otherwise the raw
thickness is the 2.0 mm structural floor and the reported hazard energy is
0.5 MeV; the recommended thickness is always the raw thickness times 1.2,
so the fallback recommendation is 2.4 mm. -/
theorem claim_C1_hazard_selection (rs : List ShieldingRecord) :
    (∀ r, r ∈ hazardousOf rs ↔ r ∈ rs ∧ 1e9 < r.fluence) ∧
    finalThickness rs = designThicknessRaw rs * 1.2 ∧
    (hazardousOf rs = [] →
      designThicknessRaw rs = 2.0 ∧ maxHazardEnergy rs = 0.5 ∧
        finalThickness rs = 2.4) ∧
    (hazardousOf rs ≠ [] →
      ∃ r ∈ hazardousOf rs, (∀ q ∈ hazardousOf rs, q.energy ≤ r.energy) ∧
        designThicknessRaw rs = r.thickness) := by
  refine ⟨fun r => mem_hazardousOf, rfl, ?_, ?_⟩
  · intro hnil
    have hemp : (hazardousOf rs).isEmpty = true := by rw [hnil]; rfl
    refine ⟨?_, ?_, ?_⟩
    · rw [designThicknessRaw, if_pos hemp]
    · rw [maxHazardEnergy, if_pos hemp]
    · rw [finalThickness, designThicknessRaw, if_pos hemp]
      norm_num
  · intro hne
    have hemp : ¬ (hazardousOf rs).isEmpty = true := by
      simpa [List.isEmpty_iff] using hne
    obtain ⟨r, hf, hm, he⟩ := firstWithEnergy_spec (maxEnergy_mem hne)
    refine ⟨r, hm, ?_, ?_⟩
    · intro q hq
      rw [he]
      exact le_maxEnergy q hq
    · rw [designThicknessRaw, if_neg hemp, hf]
      rfl

theorem claim_C1_hazard_selection_witness :
    designThicknessRaw [⟨1, 5, 7⟩] = 2.0 ∧ maxHazardEnergy [⟨1, 5, 7⟩] = 0.5 ∧
      finalThickness [⟨1, 5, 7⟩] = 2.4 :=
  (claim_C1_hazard_selection [⟨1, 5, 7⟩]).2.2.1 (by
    rw [hazardousOf, if_neg (by norm_num), hazardousOf])

/-- Claim C2: the areal density is piecewise with the exact boundary at
`E = 2.5`: below it, the exponential fit for `E > 0` and `0` at `E = 0`
(the function is total — no domain error); at and above it, the linear
fit; and every shielding row's thickness is `(r / 2.70) * 10.0` applied to
the areal density of its energy. -/
theorem claim_C2_weber_piecewise (e : ℝ) :
    (0 < e → e < 2.5 →
      weberArealDensity e = 0.412 * e ^ (1.265 - 0.0954 * Real.log e)) ∧
    weberArealDensity 0 = 0 ∧
    (2.5 ≤ e → weberArealDensity e = 0.530 * e - 0.106) ∧
    (∀ r : ℝ, thicknessMm r = (r / 2.70) * 10.0) ∧
    (∀ (d : ℝ) (rs : List FluxRecord), ∀ s ∈ shieldingRows d rs,
      s.thickness = thicknessMm (weberArealDensity s.energy)) := by
  refine ⟨?_, ?_, ?_, fun r => rfl, ?_⟩
  · intro h0 h25
    rw [weberArealDensity, if_pos h25, if_pos h0]
  · rw [weberArealDensity, if_pos (by norm_num), if_neg (by norm_num)]
    norm_num
  · intro h25
    rw [weberArealDensity, if_neg (not_lt.mpr h25)]
  · intro d rs s hs
    simp only [shieldingRows, List.mem_map] at hs
    obtain ⟨x, _, rfl⟩ := hs
    rfl

theorem claim_C2_weber_piecewise_witness :
    weberArealDensity 3 = 0.530 * 3 - 0.106 :=
  (claim_C2_weber_piecewise 3).2.2.1 (by norm_num)

/-- Claim C6: every record's fluence is `flux * duration_days * 86400`
(`24 * 3600 = 86400` seconds per day), and the shielding stage keeps
exactly the records with `energy ≥ 0.04`: every shielding row has energy
at least `0.04`, the boundary value itself is retained, and anything
strictly below is excluded. -/
theorem claim_C6_fluence_and_cutoff (d : ℝ) (rs : List FluxRecord) :
    withFluence d rs =
      rs.map (fun r => ⟨r.energy, r.flux, r.flux * (d * 86400)⟩) ∧
    (∀ x : FluenceRecord,
      x ∈ targetData d rs ↔ x ∈ withFluence d rs ∧ 0.04 ≤ x.energy) ∧
    (∀ s ∈ shieldingRows d rs, 0.04 ≤ s.energy) ∧
    (∀ r ∈ rs, 0.04 ≤ r.energy →
      (⟨r.energy, r.flux, r.flux * (d * 86400)⟩ : FluenceRecord) ∈ targetData d rs) := by
  have hmap : withFluence d rs =
      rs.map (fun r => ⟨r.energy, r.flux, r.flux * (d * 86400)⟩) := by
    unfold withFluence
    refine List.map_congr_left ?_
    intro r _
    have : r.flux * (d * 24 * 3600) = r.flux * (d * 86400) := by ring
    rw [this]
  refine ⟨hmap, fun x => mem_keepRelevant, ?_, ?_⟩
  · intro s hs
    simp only [shieldingRows, List.mem_map] at hs
    obtain ⟨x, hx, rfl⟩ := hs
    exact (mem_keepRelevant.mp hx).2
  · intro r hr he
    refine mem_keepRelevant.mpr ⟨?_, he⟩
    rw [hmap]
    exact List.mem_map.mpr ⟨r, hr, rfl⟩

theorem claim_C6_fluence_and_cutoff_witness :
    (⟨0.04, 2, 2 * (30 * 86400)⟩ : FluenceRecord) ∈ targetData 30 [⟨0.04, 2⟩] :=
  (claim_C6_fluence_and_cutoff 30 [⟨0.04, 2⟩]).2.2.2 ⟨0.04, 2⟩
    (List.mem_singleton.mpr rfl) (by norm_num)

theorem downsample_nil (k : ℕ) : downsample k ([] : List α) = [] := by
  rw [downsample]

theorem downsample_cons (k : ℕ) (x : α) (xs : List α) :
    downsample k (x :: xs) = x :: downsample k (xs.drop (k - 1)) := by
  rw [downsample]

theorem downsample_length (k : ℕ) (hk : 0 < k) (xs : List α) :
    (downsample k xs).length = (xs.length + k - 1) / k := by
  induction xs using downsample.induct k with
  | case1 =>
      rw [downsample_nil]
      simp only [List.length_nil, Nat.zero_add]
      exact (Nat.div_eq_of_lt (by omega)).symm
  | case2 x xs ih =>
      rw [downsample_cons]
      simp only [List.length_cons]
      rw [ih, List.length_drop]
      rcases le_or_lt (k - 1) xs.length with h | h
      · have e1 : xs.length - (k - 1) + k - 1 = xs.length := by omega
        have e2 : xs.length + 1 + k - 1 = xs.length + k := by omega
        rw [e1, e2, Nat.add_div_right _ hk]
      · have e1 : xs.length - (k - 1) + k - 1 = k - 1 := by omega
        have e2 : xs.length + 1 + k - 1 = xs.length + k := by omega
        rw [e1, e2, Nat.add_div_right _ hk, Nat.div_eq_of_lt (by omega),
            Nat.div_eq_of_lt (by omega)]

theorem downsample_sublist (k : ℕ) (xs : List α) :
    List.Sublist (downsample k xs) xs := by
  induction xs using downsample.induct k with
  | case1 => rw [downsample_nil]
  | case2 x xs ih =>
      rw [downsample_cons]
      exact List.Sublist.cons₂ x (ih.trans (List.drop_sublist _ _))

theorem downsample_getElem? (k : ℕ) (hk : 0 < k) (xs : List α) (i : ℕ) :
    (downsample k xs)[i]? = xs[i * k]? := by
  induction xs using downsample.induct k generalizing i with
  | case1 => rw [downsample_nil]; simp
  | case2 x xs ih =>
      rw [downsample_cons]
      cases i with
      | zero => simp
      | succ j =>
          rw [List.getElem?_cons_succ, ih j, List.getElem?_drop]
          have hidx : (j + 1) * k = (k - 1 + j * k) + 1 := by
            have hh : (j + 1) * k = j * k + k := by ring
            omega
          rw [hidx, List.getElem?_cons_succ]

/-- Claim C7: for a positive stride `k`, the slice `xs[::k]` has exactly
`ceil(N / k) = (N + k - 1) / k` elements, its `i`-th element is the source
element at index `i * k` (so nothing among the selected indices is
skipped, duplicated or reordered), and the result is a sublist of the
source, preserving relative order. -/
theorem claim_C7_downsample {α : Type} (k : ℕ) (hk : 0 < k) (xs : List α) :
    (downsample k xs).length = (xs.length + k - 1) / k ∧
    (∀ i : ℕ, (downsample k xs)[i]? = xs[i * k]?) ∧
    List.Sublist (downsample k xs) xs :=
  ⟨downsample_length k hk xs, fun i => downsample_getElem? k hk xs i,
   downsample_sublist k xs⟩

theorem claim_C7_downsample_witness :
    (downsample spenvisStride [10, 20, 30, 40, 50, 60, 70]).length =
      (([10, 20, 30, 40, 50, 60, 70] : List ℕ).length + spenvisStride - 1) /
        spenvisStride ∧
    (downsample oemStride (List.range 61)).length =
      ((List.range 61).length + oemStride - 1) / oemStride :=
  ⟨(claim_C7_downsample spenvisStride (by decide) [10, 20, 30, 40, 50, 60, 70]).1,
   (claim_C7_downsample oemStride (by decide) (List.range 61)).1⟩

/-- Claim C8: the composed state in the Jupiter frame is the elementwise
sum of the spacecraft-relative and Ganymede-relative 6-vectors scaled by
`1/1000` (metres to kilometres); the position-only composition of the
SPENVIS exporter agrees with the first three components; and on the
spec's example, km-equivalent positions `(1,2,3)` and `(10,20,30)`
compose to `(11,22,33)`. -/
theorem claim_C8_frame_composition (sc gan : Fin 6 → ℝ) :
    composeStateKm sc gan = (1 / 1000 : ℝ) • (sc + gan) ∧
    (∀ i : Fin 3, composePosKm sc gan i =
      composeStateKm sc gan (Fin.castLE (by omega) i)) ∧
    composePosKm ![1000, 2000, 3000, 0, 0, 0] ![10000, 20000, 30000, 0, 0, 0] =
      ![11, 22, 33] := by
  refine ⟨?_, ?_, ?_⟩
  · funext i
    fin_cases i <;>
      · rw [Pi.smul_apply, Pi.add_apply, smul_eq_mul, one_div, inv_mul_eq_div]
        norm_num [composeStateKm]
        try rfl
  · intro i
    fin_cases i <;> rfl
  · funext i
    fin_cases i <;> (norm_num [composePosKm]; try rfl)

/-- Claim C9: the SPENVIS file is the literal header block (containing the
exact `Title`, `Planet`, `Coordinates`, `Columns` and `Format` field
lines), then `$$BEGIN`, then one comma-separated record per retained
(stride-6) epoch — Julian date `2451545.0 + epoch_seconds / 86400.0`
rendered with 9 decimals followed by X, Y, Z in km rendered with 6
decimals — then `$$END`. -/
theorem claim_C9_spenvis_format (fmt : ℕ → ℝ → String) (gan : ℝ → Fin 6 → ℝ)
    (times : List ℝ) (states : List (Fin 6 → ℝ)) :
    spenvisFileLines fmt gan times states =
      spenvisHeaderLines ++
        "$$BEGIN" ::
          (((downsample spenvisStride times).zip (downsample spenvisStride states)).map
            (fun p => fmt 9 (2451545.0 + p.1 / 86400.0) ++ ", " ++
              fmt 6 (composePosKm p.2 (gan p.1) 0) ++ ", " ++
              fmt 6 (composePosKm p.2 (gan p.1) 1) ++ ", " ++
              fmt 6 (composePosKm p.2 (gan p.1) 2))) ++
          ["$$END"] ∧
    spenvisHeaderLines =
      ["******************************************************************",
       "* Optimized Ganymede Orbiter Trajectory (60s step)",
       "******************************************************************",
       "Title: Ganymede Orbiter Analysis",
       "Planet: Jupiter",
       "Coordinates: PEI",
       "Columns: JDCT, X, Y, Z",
       "Format: CSV",
       "******************************************************************"] := by
  refine ⟨?_, rfl⟩
  unfold spenvisFileLines spenvisDataLine jdJ2000
  simp [List.append_assoc, List.singleton_append]

theorem calculate_shielding_some (pf : List Char → Option ℝ)
    (lines : List (List Char)) (d : ℝ) :
    calculate_shielding pf (some lines) d =
      if (parseFile pf lines).isEmpty then RunOutcome.emptyData
      else
        RunOutcome.success (maxHazardEnergy (shieldingRows d (parseFile pf lines)))
          (finalThickness (shieldingRows d (parseFile pf lines))) := rfl

theorem hazardousOf_eq_nil {rs : List ShieldingRecord}
    (h : ∀ r ∈ rs, r.fluence ≤ 1e9) : hazardousOf rs = [] := by
  induction rs with
  | nil => rfl
  | cons a tl ih =>
      rw [hazardousOf, if_neg (not_lt.mpr (h a (List.mem_cons_self a tl)))]
      exact ih (fun r hr => h r (List.mem_cons_of_mem a hr))

theorem shieldingRows_fluence_nonpos {d : ℝ} {rs : List FluxRecord}
    (hflux : ∀ r ∈ rs, 0 ≤ r.flux) (hd : d ≤ 0) :
    ∀ s ∈ shieldingRows d rs, s.fluence ≤ 0 := by
  intro s hs
  simp only [shieldingRows, List.mem_map] at hs
  obtain ⟨x, hx, rfl⟩ := hs
  have hx2 : x ∈ withFluence d rs := (mem_keepRelevant.mp hx).1
  simp only [withFluence, List.mem_map] at hx2
  obtain ⟨r, hr, rfl⟩ := hx2
  show r.flux * (d * 24 * 3600) ≤ 0
  have hsec : d * 24 * 3600 ≤ 0 := by nlinarith
  exact mul_nonpos_of_nonneg_of_nonpos (hflux r hr) hsec

/-- Claim C4 counterexample: with mission duration `0` and a one-line
file parsing to a single record, the pipeline does NOT reject — it runs to
a successful outcome (fallback hazard energy 0.5 MeV, recommended
thickness 2.4 mm), silently having computed the fluence `0` for the
record.  There is no `InvalidDurationError` path in the code at all. -/
theorem claim_C4_counterexample :
    calculate_shielding pfOne (some [['1', ' ', '2']]) 0 = RunOutcome.success 0.5 2.4 ∧
    (withFluence 0 (parseFile pfOne [['1', ' ', '2']])).map FluenceRecord.fluence = [0] := by
  have hrows : parseFile pfOne [['1', ' ', '2']] = [⟨1, 1⟩] := rfl
  constructor
  · rw [calculate_shielding_some, hrows, if_neg (by simp)]
    have hwf : withFluence 0 [(⟨1, 1⟩ : FluxRecord)] = [⟨1, 1, 1 * (0 * 24 * 3600)⟩] := rfl
    have htd : targetData 0 [(⟨1, 1⟩ : FluxRecord)] = [⟨1, 1, 1 * (0 * 24 * 3600)⟩] := by
      rw [targetData, hwf, keepRelevant, if_pos (by norm_num), keepRelevant]
    have hsr : shieldingRows 0 [(⟨1, 1⟩ : FluxRecord)] =
        [⟨1, 1 * (0 * 24 * 3600), thicknessMm (weberArealDensity 1)⟩] := by
      rw [shieldingRows, htd]
      rfl
    have hhaz : hazardousOf (shieldingRows 0 [(⟨1, 1⟩ : FluxRecord)]) = [] := by
      rw [hsr, hazardousOf, if_neg (by norm_num), hazardousOf]
    have hemp : (hazardousOf (shieldingRows 0 [(⟨1, 1⟩ : FluxRecord)])).isEmpty = true := by
      rw [hhaz]
      rfl
    rw [maxHazardEnergy, if_pos hemp, finalThickness, designThicknessRaw, if_pos hemp]
    norm_num
  · rw [hrows]
    simp [withFluence]

/-- Claim C4, amended: the pipeline performs no duration validation.  For
every mission duration `d ≤ 0` and every parseable input whose records all
carry nonnegative flux, the fluences `flux * d * 86400` are silently
computed as nonpositive numbers, no record is hazardous, and the run
succeeds with the fallback outcome (hazard energy 0.5 MeV, recommended
thickness 2.4 mm). -/
theorem claim_C4_amended_no_validation (pf : List Char → Option ℝ)
    (lines : List (List Char)) (d : ℝ) (hd : d ≤ 0)
    (hne : parseFile pf lines ≠ [])
    (hflux : ∀ r ∈ parseFile pf lines, 0 ≤ r.flux) :
    calculate_shielding pf (some lines) d = RunOutcome.success 0.5 2.4 := by
  rw [calculate_shielding_some, if_neg (by simpa [List.isEmpty_iff] using hne)]
  have hhaz : hazardousOf (shieldingRows d (parseFile pf lines)) = [] :=
    hazardousOf_eq_nil (fun s hs =>
      le_trans (shieldingRows_fluence_nonpos hflux hd s hs) (by norm_num))
  have hemp : (hazardousOf (shieldingRows d (parseFile pf lines))).isEmpty = true := by
    rw [hhaz]
    rfl
  rw [maxHazardEnergy, if_pos hemp, finalThickness, designThicknessRaw, if_pos hemp]
  norm_num

theorem claim_C4_amended_no_validation_witness :
    calculate_shielding pfOne (some [['1', ' ', '2']]) (-5) = RunOutcome.success 0.5 2.4 :=
  claim_C4_amended_no_validation pfOne [['1', ' ', '2']] (-5) (by norm_num)
    (by rw [show parseFile pfOne [['1', ' ', '2']] = [⟨1, 1⟩] from rfl]
        exact List.cons_ne_nil _ _)
    (by rw [show parseFile pfOne [['1', ' ', '2']] = [⟨1, 1⟩] from rfl]
        intro r hr
        rcases List.mem_singleton.mp hr with rfl
        norm_num)

/-- Claim C5: a missing input file yields the `FileNotFoundError` outcome
and a file with no parseable record yields the empty-dataset outcome; both
are terminal — the outcome carries no records, no plot and no thickness,
only the `0.0` return value reported to the caller. -/
theorem claim_C5_error_paths (pf : List Char → Option ℝ) (d : ℝ) :
    calculate_shielding pf none d = RunOutcome.fileMissing ∧
    pyReturn RunOutcome.fileMissing = some 0.0 ∧
    pyReturn RunOutcome.emptyData = some 0.0 ∧
    (∀ lines, parseFile pf lines = [] →
      calculate_shielding pf (some lines) d = RunOutcome.emptyData) := by
  refine ⟨rfl, rfl, rfl, ?_⟩
  intro lines h
  rw [calculate_shielding_some, if_pos (by simp [h])]

theorem claim_C5_error_paths_witness :
    calculate_shielding pfOne (some [[]]) 30 = RunOutcome.emptyData :=
  (claim_C5_error_paths pfOne 30).2.2.2 [[]] rfl

/-- Claim C10: the Python return value of `calculate_shielding` is `None`
(modelled `none`) exactly on successful runs — the computed thickness is
printed and plotted, never returned — while `0.0` is returned on the two
error paths (missing file, or zero parsed records). -/
theorem claim_C10_return_values (pf : List Char → Option ℝ) (d : ℝ)
    (lines : List (List Char)) :
    pyReturn (calculate_shielding pf none d) = some 0.0 ∧
    (parseFile pf lines = [] →
      pyReturn (calculate_shielding pf (some lines) d) = some 0.0) ∧
    (parseFile pf lines ≠ [] →
      pyReturn (calculate_shielding pf (some lines) d) = none) := by
  refine ⟨rfl, ?_, ?_⟩
  · intro h
    rw [calculate_shielding_some, if_pos (by simp [h])]
    rfl
  · intro h
    rw [calculate_shielding_some, if_neg (by simpa [List.isEmpty_iff] using h)]
    rfl

theorem claim_C10_return_values_witness :
    pyReturn (calculate_shielding pfOne (some [['1', ' ', '2']]) 30) = none :=
  (claim_C10_return_values pfOne 30 [['1', ' ', '2']]).2.2 (by
    rw [show parseFile pfOne [['1', ' ', '2']] = [⟨1, 1⟩] from rfl]
    exact List.cons_ne_nil _ _)

end Jovian
